import Mathlib

/-!
Verification of the differentiability-witness resolution subsystem
(`lib/SILOptimizer/Utils/Differentiation/DerivativeLookup.cpp`).

The subsystem is embedded shallowly:

* `IndexSubset` is a fixed-capacity bit-set, represented by its list of bits
  (`bits.length` is the capacity).  Its operations (`extendingCapacity`,
  `isSupersetOf`, `getNumIndices`, `contains`) are modelled from the spec,
  since the `IndexSubset` implementation itself is outside the source
  fragment; fallible operations return `Option`.
* `DifferentiableAttr` carries the *lowered* parameter indices (the value
  `attrParameterIndices` computed in the source loop) together with the
  opaque derivative generic-signature handle.
* `getMinimalASTDifferentiableAttr` is the minimal-cover search.  A trap
  (an `IndexSubset` operation invoked outside its domain, or the failed
  eager-registration assertion) is modelled as `Except.error` carrying a
  `LookupFault`.
* `SILModule` is the witness registry: the list of registered witnesses.
* `getOrCreateMinimalASTDifferentiabilityWitness` is the get-or-create entry
  point, written as an explicit state transformer on `SILModule`.
-/

/-- Opaque generic-signature handle: compared only by equality, never
inspected, exactly as the spec requires of the external collaborator. -/
structure GenericSignature where
  id : Nat
  deriving DecidableEq, Repr

/-- A fixed-capacity bit-set over ordinal positions.  The capacity is the
length of `bits`; position `i` is a member iff bit `i` is `true`.
Modelled from the spec: the `IndexSubset` implementation is not part of the
source fragment; the spec fixes its operations (§3, §4.1). -/
structure IndexSubset where
  bits : List Bool
  deriving DecidableEq, Repr

namespace IndexSubset

/-- The total addressable range of the set. -/
def getCapacity (s : IndexSubset) : Nat := s.bits.length

/-- Membership test; positions at or beyond the capacity are not members. -/
def contains (s : IndexSubset) (i : Nat) : Bool := s.bits.getD i false

/-- Population count. -/
def getNumIndices (s : IndexSubset) : Nat := s.bits.count true

/-- Modelled from the spec: `extendingCapacity` zero-pads to the new
capacity, never removes members, and fails (is undefined) when asked to
shrink the capacity (§4.1: "fails (or is undefined) if asked to shrink
capacity"). -/
def extendingCapacity (s : IndexSubset) (newCapacity : Nat) : Option IndexSubset :=
  if s.getCapacity ≤ newCapacity then
    some ⟨s.bits ++ List.replicate (newCapacity - s.getCapacity) false⟩
  else
    none

/-- Modelled from the spec: `isSupersetOf` requires equal capacities (§4.1)
and otherwise fails; with equal capacities it holds iff every member of
`other` is a member of `s`. -/
def isSupersetOf (s other : IndexSubset) : Option Bool :=
  if s.getCapacity = other.getCapacity then
    some ((other.bits.zip s.bits).all fun p => !p.1 || p.2)
  else
    none

end IndexSubset

/-- A declared differentiability attribute.  `parameterIndices` is the
*lowered* parameter index set (the `attrParameterIndices` the source computes
from the attribute and the function's interface type; the lowering itself is
an out-of-scope collaborator, so the attribute record carries its result
directly). -/
structure DifferentiableAttr where
  parameterIndices : IndexSubset
  derivativeGenericSignature : GenericSignature
  deriving DecidableEq, Repr

/-- The declaration a `SILFunction` may come from, carrying its
`@differentiable` attributes in declaration order. -/
structure AbstractFunctionDecl where
  attrs : List DifferentiableAttr
  deriving DecidableEq, Repr

/-- A SIL function: its name (the opaque function identity used as the
registry key), its originating declaration if any, and whether it is an
external declaration (no full local body). -/
structure SILFunction where
  name : String
  declContextDecl : Option AbstractFunctionDecl
  isExternalDeclaration : Bool
  deriving DecidableEq, Repr

/-- `findAbstractFunctionDecl`: the declaration context chain of the source
(`getDeclContext` / `getAsDecl` / `dyn_cast`) collapses to the optional
originating declaration. -/
def findAbstractFunctionDecl (F : SILFunction) : Option AbstractFunctionDecl :=
  F.declContextDecl

/-- The faults with which a run of the subsystem can abort: an
`extendingCapacity` call asked to shrink (its assertion), an `isSupersetOf`
call on unequal capacities (its assertion), and the failed eager-registration
assertion of `getOrCreateMinimalASTDifferentiabilityWitness`. -/
inductive LookupFault
  | capacityShrink
  | capacityMismatch
  | eagerWitnessMissing
  deriving DecidableEq, Repr

/-- One iteration of the loop of `getMinimalASTDifferentiableAttr`: extend
the requested indices to the attribute's capacity, test the superset
condition, and install the attribute as the new candidate when it covers the
request with strictly fewer indices than the current candidate (or when
there is no current candidate).  The source performs the extension
unconditionally, so a smaller attribute capacity aborts. -/
def minimalAttrStep (parameterIndices : IndexSubset)
    (best : Option DifferentiableAttr) (attr : DifferentiableAttr) :
    Except LookupFault (Option DifferentiableAttr) :=
  match parameterIndices.extendingCapacity attr.parameterIndices.getCapacity with
  | none => .error .capacityShrink
  | some extended =>
    match attr.parameterIndices.isSupersetOf extended with
    | none => .error .capacityMismatch
    | some sup =>
      let fewer : Bool :=
        match best with
        | none => true
        | some b =>
          decide (attr.parameterIndices.getNumIndices < b.parameterIndices.getNumIndices)
      if sup && fewer then .ok (some attr) else .ok best

/-- The loop of `getMinimalASTDifferentiableAttr` over the remaining
attributes, carrying the current candidate. -/
def minimalAttrLoop (parameterIndices : IndexSubset) :
    List DifferentiableAttr → Option DifferentiableAttr →
    Except LookupFault (Option DifferentiableAttr)
  | [], best => .ok best
  | attr :: rest, best =>
    match minimalAttrStep parameterIndices best attr with
    | .error e => .error e
    | .ok best' => minimalAttrLoop parameterIndices rest best'

/-- `getMinimalASTDifferentiableAttr`: the minimal-cover search over the
declaration's attributes in declaration order.  The out-parameter
`minimalParameterIndices` of the source is determined by the result
(it is the returned attribute's lowered parameter indices). -/
def getMinimalASTDifferentiableAttr (original : AbstractFunctionDecl)
    (parameterIndices : IndexSubset) :
    Except LookupFault (Option DifferentiableAttr) :=
  minimalAttrLoop parameterIndices original.attrs none

/-- Coverage as the source loop computes it: the request extends to the
attribute's capacity and the attribute's indices are a superset of the
extension. -/
def coversRequest (parameterIndices : IndexSubset) (attr : DifferentiableAttr) : Bool :=
  match parameterIndices.extendingCapacity attr.parameterIndices.getCapacity with
  | none => false
  | some extended =>
    match attr.parameterIndices.isSupersetOf extended with
    | none => false
    | some sup => sup

/-- An autodiff configuration: the canonical key identifying one witness. -/
structure AutoDiffConfig where
  parameterIndices : IndexSubset
  resultIndices : IndexSubset
  derivativeGenericSignature : GenericSignature
  deriving DecidableEq, Repr

/-- Witness state: a declaration (external reference, no body) or a full
definition. -/
inductive WitnessState
  | declaration
  | definition
  deriving DecidableEq, Repr

/-- SIL linkage; the factory always uses `publicExternal`. -/
inductive SILLinkage
  | publicLinkage
  | publicExternal
  | hidden
  deriving DecidableEq, Repr

/-- A differentiability witness record, owned by the module registry. -/
structure SILDifferentiabilityWitness where
  originalName : String
  config : AutoDiffConfig
  state : WitnessState
  linkage : SILLinkage
  deriving DecidableEq, Repr

/-- The module-wide witness registry: the registered witnesses, in
registration order. -/
structure SILModule where
  witnesses : List SILDifferentiabilityWitness
  deriving DecidableEq, Repr

/-- `SILModule::lookUpDifferentiabilityWitnessesForFunction`: every witness
registered for the given function name. -/
def SILModule.lookUpDifferentiabilityWitnessesForFunction (module : SILModule)
    (name : String) : List SILDifferentiabilityWitness :=
  module.witnesses.filter fun w => decide (w.originalName = name)

/-- `getExactDifferentiabilityWitness`: scan the witnesses registered for the
function and return the first whose parameter and result index sets equal the
arguments exactly; the derivative signature is not examined. -/
def getExactDifferentiabilityWitness (module : SILModule) (original : SILFunction)
    (parameterIndices resultIndices : IndexSubset) :
    Option SILDifferentiabilityWitness :=
  (module.lookUpDifferentiabilityWitnessesForFunction original.name).find? fun w =>
    decide (w.config.parameterIndices = parameterIndices ∧
      w.config.resultIndices = resultIndices)

/-- Modelled from the spec: `SILModule::lookUpDifferentiabilityWitness` is
not part of the source fragment.  The spec (§4.2, and step 3 of §4.4, which
uses this lookup) fixes the registry's exact lookup as keyed by the function
identity and the config's parameter and result index sets only — "signature
is not part of the lookup key for this call".  It returns the first (only,
by the registry invariant) match. -/
def SILModule.lookUpDifferentiabilityWitness (module : SILModule)
    (name : String) (config : AutoDiffConfig) :
    Option SILDifferentiabilityWitness :=
  module.witnesses.find? fun w =>
    decide (w.originalName = name ∧
      w.config.parameterIndices = config.parameterIndices ∧
      w.config.resultIndices = config.resultIndices)

/-- Modelled from the spec: `SILDifferentiabilityWitness::createDeclaration`
is not part of the source fragment.  The spec (§4.4 step 4) has it construct
a new witness in `Declaration` state with the given linkage and register it
in the module registry keyed by the function identity and configuration. -/
def SILDifferentiabilityWitness.createDeclaration (module : SILModule)
    (linkage : SILLinkage) (original : SILFunction)
    (parameterIndices resultIndices : IndexSubset)
    (derivativeGenericSignature : GenericSignature) :
    SILDifferentiabilityWitness × SILModule :=
  let w : SILDifferentiabilityWitness :=
    ⟨original.name, ⟨parameterIndices, resultIndices, derivativeGenericSignature⟩,
      .declaration, linkage⟩
  (w, ⟨module.witnesses ++ [w]⟩)

/-- `getOrCreateMinimalASTDifferentiabilityWitness`, as an explicit state
transformer on the module registry.  The failed assertion ("SILGen should
create differentiability witnesses for all function definitions with
explicit differentiable attributes") is modelled as a fatal fault, as §7 of
the spec requires of this invariant violation. -/
def getOrCreateMinimalASTDifferentiabilityWitness (module : SILModule)
    (original : SILFunction) (parameterIndices resultIndices : IndexSubset) :
    Except LookupFault (Option SILDifferentiabilityWitness × SILModule) :=
  if resultIndices.getCapacity ≠ 1 ∨ resultIndices.contains 0 = false then
    .ok (none, module)
  else
    match findAbstractFunctionDecl original with
    | none => .ok (none, module)
    | some originalAFD =>
      match getMinimalASTDifferentiableAttr originalAFD parameterIndices with
      | .error e => .error e
      | .ok none => .ok (none, module)
      | .ok (some minimalAttr) =>
        let minimalConfig : AutoDiffConfig :=
          ⟨minimalAttr.parameterIndices, resultIndices,
            minimalAttr.derivativeGenericSignature⟩
        match module.lookUpDifferentiabilityWitness original.name minimalConfig with
        | some existingWitness => .ok (some existingWitness, module)
        | none =>
          if original.isExternalDeclaration then
            let created := SILDifferentiabilityWitness.createDeclaration module
              .publicExternal original minimalConfig.parameterIndices
              minimalConfig.resultIndices minimalConfig.derivativeGenericSignature
            .ok (some created.1, created.2)
          else
            .error .eagerWitnessMissing

/-- The resolver exactly as §4.3 of the spec words it, for refinement
comparison with `getMinimalASTDifferentiableAttr`: an annotation whose
capacity is smaller than the request's is *skipped* ("it cannot cover a
larger request") instead of the extension being attempted. -/
def findMinimalCoverSpec (parameterIndices : IndexSubset) :
    List DifferentiableAttr → Option DifferentiableAttr →
    Option DifferentiableAttr
  | [], best => best
  | attr :: rest, best =>
    match parameterIndices.extendingCapacity attr.parameterIndices.getCapacity with
    | none => findMinimalCoverSpec parameterIndices rest best
    | some extended =>
      match attr.parameterIndices.isSupersetOf extended with
      | some true =>
        let fewer : Bool :=
          match best with
          | none => true
          | some b =>
            decide (attr.parameterIndices.getNumIndices < b.parameterIndices.getNumIndices)
        if fewer then findMinimalCoverSpec parameterIndices rest (some attr)
        else findMinimalCoverSpec parameterIndices rest best
      | _ => findMinimalCoverSpec parameterIndices rest best

/-- The precondition of the eager-registration invariant: a function with a
full local definition has had a witness registered (by the front end) for
each of its attributes' lowered parameter indices with the single result
index set. -/
def eagerWitnessesRegistered (module : SILModule) (original : SILFunction)
    (afd : AbstractFunctionDecl) : Prop :=
  original.isExternalDeclaration = false →
    ∀ attr ∈ afd.attrs, ∃ w ∈ module.witnesses,
      w.originalName = original.name ∧
      w.config.parameterIndices = attr.parameterIndices ∧
      w.config.resultIndices = ⟨[true]⟩

/-- Concrete opaque signature handles for the worked scenarios. -/
def exSig1 : GenericSignature := ⟨1⟩

def exSig2 : GenericSignature := ⟨2⟩

/-- Scenario `f` of the spec: attribute with indices `{0,1}` at capacity 2. -/
def exAttrTwoIdx : DifferentiableAttr := ⟨⟨[true, true]⟩, exSig1⟩

/-- Scenario `f` of the spec: attribute with indices `{0}` at capacity 2. -/
def exAttrOneIdx : DifferentiableAttr := ⟨⟨[true, false]⟩, exSig2⟩

/-- Scenario `f`: both attributes, in declaration order. -/
def exAfdF : AbstractFunctionDecl := ⟨[exAttrTwoIdx, exAttrOneIdx]⟩

/-- Scenario `f` as an external SIL function. -/
def exFuncF : SILFunction := ⟨"f", some exAfdF, true⟩

/-- Scenario `g` of the spec: one attribute with indices `{0,2}` at
capacity 3. -/
def exAttrG : DifferentiableAttr := ⟨⟨[true, false, true]⟩, exSig1⟩

def exAfdG : AbstractFunctionDecl := ⟨[exAttrG]⟩

/-- Scenario `g` as an external SIL function. -/
def exFuncG : SILFunction := ⟨"g", some exAfdG, true⟩

/-- Scenario `g` as a function with a full local definition. -/
def exFuncGDefined : SILFunction := ⟨"g", some exAfdG, false⟩

/-- An attribute whose capacity (1) is smaller than the capacity-2 requests
below. -/
def exAttrSmall : DifferentiableAttr := ⟨⟨[true]⟩, exSig1⟩

def exAfdSmall : AbstractFunctionDecl := ⟨[exAttrSmall]⟩

def exFuncSmall : SILFunction := ⟨"s", some exAfdSmall, true⟩

/-- A function with no associated declaration. -/
def exFuncNoDecl : SILFunction := ⟨"n", none, true⟩

/-- The request `{0}` at capacity 2. -/
def exReqCap2 : IndexSubset := ⟨[true, false]⟩

/-- The single-result index set `{0}` at capacity 1. -/
def exResSingle : IndexSubset := ⟨[true]⟩

/-- A result index set rejected by the single-result gate (capacity 2). -/
def exResBad : IndexSubset := ⟨[true, false]⟩

def exEmptyModule : SILModule := ⟨[]⟩

/-- A witness registered for `g`'s minimal configuration but with a
*different* derivative signature than `exAttrG`'s. -/
def exWitnessOtherSig : SILDifferentiabilityWitness :=
  ⟨"g", ⟨⟨[true, false, true]⟩, ⟨[true]⟩, exSig2⟩, .declaration, .publicLinkage⟩

def exModuleOtherSig : SILModule := ⟨[exWitnessOtherSig]⟩

/-- The eagerly-registered witness for `g`'s attribute, as the front end
would create it for a function definition. -/
def exWitnessEager : SILDifferentiabilityWitness :=
  ⟨"g", ⟨⟨[true, false, true]⟩, ⟨[true]⟩, exSig1⟩, .definition, .publicLinkage⟩

def exModuleEager : SILModule := ⟨[exWitnessEager]⟩

/-- An annotation over capacity 2 that does not cover the request `{0}`
(its only index is 1). -/
def exAttrNoCover : DifferentiableAttr := ⟨⟨[false, true]⟩, exSig1⟩

def exAfdNoCover : AbstractFunctionDecl := ⟨[exAttrNoCover]⟩

def exFuncNoCover : SILFunction := ⟨"c", some exAfdNoCover, true⟩

/-- A function whose declaration has no attributes at all. -/
def exFuncNoAttrs : SILFunction := ⟨"e", some ⟨[]⟩, true⟩

/-- The witness the factory creates for scenario `g` at request `{0}`
(capacity 2) with the single result index. -/
def exWitnessG : SILDifferentiabilityWitness :=
  ⟨"g", ⟨⟨[true, false, true]⟩, ⟨[true]⟩, exSig1⟩, .declaration, .publicExternal⟩

def exModuleG : SILModule := ⟨[exWitnessG]⟩

theorem extendingCapacity_getCapacity {s e : IndexSubset} {c : Nat}
    (h : s.extendingCapacity c = some e) : e.getCapacity = c := by
  unfold IndexSubset.extendingCapacity at h
  split at h
  · cases h
    simp only [IndexSubset.getCapacity, List.length_append, List.length_replicate] at *
    omega
  · cases h

theorem eq_singleton_of_capacity_one_contains_zero {s : IndexSubset}
    (hcap : s.getCapacity = 1) (hc : s.contains 0 = true) : s = ⟨[true]⟩ := by
  obtain ⟨bits⟩ := s
  simp only [IndexSubset.getCapacity, List.length_eq_one] at hcap
  obtain ⟨b, rfl⟩ := hcap
  simp only [IndexSubset.contains, List.getD] at hc
  simp_all

theorem minimalAttrStep_shrink {parameterIndices : IndexSubset}
    {attr : DifferentiableAttr} (best : Option DifferentiableAttr)
    (h : attr.parameterIndices.getCapacity < parameterIndices.getCapacity) :
    minimalAttrStep parameterIndices best attr = .error .capacityShrink := by
  unfold minimalAttrStep
  have hext : parameterIndices.extendingCapacity attr.parameterIndices.getCapacity = none := by
    unfold IndexSubset.extendingCapacity
    split
    · omega
    · rfl
  rw [hext]

theorem minimalAttrStep_isOk {parameterIndices : IndexSubset}
    {attr : DifferentiableAttr} (best : Option DifferentiableAttr)
    (h : parameterIndices.getCapacity ≤ attr.parameterIndices.getCapacity) :
    ∃ best', minimalAttrStep parameterIndices best attr = .ok best' := by
  unfold minimalAttrStep
  have hext : ∃ e, parameterIndices.extendingCapacity attr.parameterIndices.getCapacity
      = some e := by
    unfold IndexSubset.extendingCapacity
    exact ⟨_, if_pos h⟩
  obtain ⟨e, hext⟩ := hext
  rw [hext]
  dsimp only
  have hsup : ∃ b, attr.parameterIndices.isSupersetOf e = some b := by
    unfold IndexSubset.isSupersetOf
    exact ⟨_, if_pos (extendingCapacity_getCapacity hext).symm⟩
  obtain ⟨b, hsup⟩ := hsup
  rw [hsup]
  dsimp only
  split <;> exact ⟨_, rfl⟩

theorem minimalAttrStep_ok {parameterIndices : IndexSubset}
    {best best' : Option DifferentiableAttr} {attr : DifferentiableAttr}
    (h : minimalAttrStep parameterIndices best attr = .ok best') :
    (coversRequest parameterIndices attr = true ∧
      (∀ b, best = some b →
        attr.parameterIndices.getNumIndices < b.parameterIndices.getNumIndices) ∧
      best' = some attr) ∨
    (best' = best ∧
      (coversRequest parameterIndices attr = true →
        ∃ b, best = some b ∧
          b.parameterIndices.getNumIndices ≤ attr.parameterIndices.getNumIndices)) := by
  unfold minimalAttrStep at h
  unfold coversRequest
  cases hext : parameterIndices.extendingCapacity attr.parameterIndices.getCapacity with
  | none => rw [hext] at h; exact absurd h (by simp)
  | some extended =>
    rw [hext] at h
    dsimp only at h ⊢
    cases hsup : attr.parameterIndices.isSupersetOf extended with
    | none => rw [hsup] at h; exact absurd h (by simp)
    | some sup =>
      rw [hsup] at h
      dsimp only at h ⊢
      split at h
      case isTrue hcond =>
        rw [Bool.and_eq_true] at hcond
        obtain ⟨hs, hf⟩ := hcond
        have hb' : best' = some attr := by
          injection h with h'
          exact h'.symm
        refine Or.inl ⟨hs, ?_, hb'⟩
        intro b hb
        subst hb
        simpa using hf
      case isFalse hcond =>
        have hb' : best' = best := by
          injection h with h'
          exact h'.symm
        refine Or.inr ⟨hb', ?_⟩
        intro hcov
        subst hcov
        cases best with
        | none => simp at hcond
        | some b =>
          simp only [Bool.true_and, decide_eq_true_eq] at hcond
          exact ⟨b, rfl, Nat.le_of_not_lt hcond⟩

theorem minimalAttrLoop_min {parameterIndices : IndexSubset} :
    ∀ (attrs : List DifferentiableAttr) (best : Option DifferentiableAttr)
      (m : DifferentiableAttr),
      (∀ b, best = some b → coversRequest parameterIndices b = true) →
      minimalAttrLoop parameterIndices attrs best = .ok (some m) →
      coversRequest parameterIndices m = true ∧
      (∀ a ∈ attrs, coversRequest parameterIndices a = true →
        m.parameterIndices.getNumIndices ≤ a.parameterIndices.getNumIndices) ∧
      (∀ b, best = some b →
        m.parameterIndices.getNumIndices ≤ b.parameterIndices.getNumIndices)
  | [], best, m, hbest, h => by
    unfold minimalAttrLoop at h
    injection h with h'
    subst h'
    exact ⟨hbest m rfl, by simp, fun b hb => by cases hb; exact Nat.le_refl _⟩
  | attr :: rest, best, m, hbest, h => by
    unfold minimalAttrLoop at h
    cases hstep : minimalAttrStep parameterIndices best attr with
    | error e => rw [hstep] at h; cases h
    | ok best' =>
      rw [hstep] at h
      rcases minimalAttrStep_ok hstep with ⟨hcov, hlt, rfl⟩ | ⟨heq, hkeep⟩
      · obtain ⟨hm, hmin, hle⟩ :=
          minimalAttrLoop_min rest (some attr) m
            (fun b hb => by cases hb; exact hcov) h
        have hma : m.parameterIndices.getNumIndices ≤ attr.parameterIndices.getNumIndices :=
          hle attr rfl
        refine ⟨hm, ?_, ?_⟩
        · intro a ha hacov
          rcases List.mem_cons.mp ha with rfl | ha'
          · exact hma
          · exact hmin a ha' hacov
        · intro b hb
          exact Nat.le_of_lt (Nat.lt_of_le_of_lt hma (hlt b hb))
      · subst heq
        obtain ⟨hm, hmin, hle⟩ := minimalAttrLoop_min rest best' m hbest h
        refine ⟨hm, ?_, hle⟩
        intro a ha hacov
        rcases List.mem_cons.mp ha with rfl | ha'
        · obtain ⟨b, hb, hba⟩ := hkeep hacov
          exact Nat.le_trans (hle b hb) hba
        · exact hmin a ha' hacov


theorem minimalAttrLoop_first {parameterIndices : IndexSubset} :
    ∀ (attrs : List DifferentiableAttr) (best : Option DifferentiableAttr)
      (m : DifferentiableAttr),
      minimalAttrLoop parameterIndices attrs best = .ok (some m) →
      (best = some m) ∨
      (∃ pre post, attrs = pre ++ m :: post ∧
        coversRequest parameterIndices m = true ∧
        (∀ b, best = some b →
          m.parameterIndices.getNumIndices < b.parameterIndices.getNumIndices) ∧
        ∀ a ∈ pre, coversRequest parameterIndices a = true →
          m.parameterIndices.getNumIndices < a.parameterIndices.getNumIndices)
  | [], best, m, h => by
    unfold minimalAttrLoop at h
    injection h with h'
    exact Or.inl h'
  | attr :: rest, best, m, h => by
    unfold minimalAttrLoop at h
    cases hstep : minimalAttrStep parameterIndices best attr with
    | error e => rw [hstep] at h; cases h
    | ok best' =>
      rw [hstep] at h
      rcases minimalAttrStep_ok hstep with ⟨hcov, hlt, rfl⟩ | ⟨heq, hkeep⟩
      · rcases minimalAttrLoop_first rest (some attr) m h with hb | hsplit
        · injection hb with hb'
          subst hb'
          exact Or.inr ⟨[], rest, rfl, hcov, hlt, by simp⟩
        · obtain ⟨pre, post, hrest, hcovm, hblt, hpre⟩ := hsplit
          have hma : m.parameterIndices.getNumIndices < attr.parameterIndices.getNumIndices :=
            hblt attr rfl
          refine Or.inr ⟨attr :: pre, post, by rw [hrest]; rfl, hcovm, ?_, ?_⟩
          · intro b hb
            exact Nat.lt_trans hma (hlt b hb)
          · intro a ha hacov
            rcases List.mem_cons.mp ha with rfl | ha'
            · exact hma
            · exact hpre a ha' hacov
      · subst heq
        rcases minimalAttrLoop_first rest best' m h with hb | hsplit
        · exact Or.inl hb
        · obtain ⟨pre, post, hrest, hcovm, hblt, hpre⟩ := hsplit
          refine Or.inr ⟨attr :: pre, post, by rw [hrest]; rfl, hcovm, hblt, ?_⟩
          intro a ha hacov
          rcases List.mem_cons.mp ha with rfl | ha'
          · obtain ⟨b, hb, hba⟩ := hkeep hacov
            exact Nat.lt_of_lt_of_le (hblt b hb) hba
          · exact hpre a ha' hacov

theorem minimalAttrLoop_shrink {parameterIndices : IndexSubset} :
    ∀ (attrs : List DifferentiableAttr) (best : Option DifferentiableAttr),
      (∃ a ∈ attrs, a.parameterIndices.getCapacity < parameterIndices.getCapacity) →
      minimalAttrLoop parameterIndices attrs best = .error .capacityShrink
  | [], _, h => by simp at h
  | attr :: rest, best, h => by
    unfold minimalAttrLoop
    by_cases hc : attr.parameterIndices.getCapacity < parameterIndices.getCapacity
    · rw [minimalAttrStep_shrink best hc]
    · obtain ⟨best', hstep⟩ := minimalAttrStep_isOk best (Nat.le_of_not_lt hc)
      rw [hstep]
      apply minimalAttrLoop_shrink rest best'
      obtain ⟨a, ha, hlt⟩ := h
      rcases List.mem_cons.mp ha with rfl | ha'
      · exact absurd hlt hc
      · exact ⟨a, ha', hlt⟩

theorem minimalAttrLoop_no_cover {parameterIndices : IndexSubset} :
    ∀ (attrs : List DifferentiableAttr) (best : Option DifferentiableAttr),
      (∀ a ∈ attrs, parameterIndices.getCapacity ≤ a.parameterIndices.getCapacity) →
      (∀ a ∈ attrs, coversRequest parameterIndices a = false) →
      minimalAttrLoop parameterIndices attrs best = .ok best
  | [], _, _, _ => rfl
  | attr :: rest, best, hcap, hcov => by
    unfold minimalAttrLoop
    obtain ⟨best', hstep⟩ :=
      minimalAttrStep_isOk best (hcap attr (List.mem_cons_self attr rest))
    rw [hstep]
    rcases minimalAttrStep_ok hstep with ⟨hc, _, _⟩ | ⟨heq, _⟩
    · rw [hcov attr (List.mem_cons_self attr rest)] at hc
      cases hc
    · subst heq
      exact minimalAttrLoop_no_cover rest best'
        (fun a ha => hcap a (List.mem_cons_of_mem attr ha))
        (fun a ha => hcov a (List.mem_cons_of_mem attr ha))

theorem find?_eq_some_of_unique {α : Type} {p : α → Bool} {a : α} :
    ∀ {l : List α}, a ∈ l → p a = true → (∀ b ∈ l, p b = true → b = a) →
      l.find? p = some a
  | [], h, _, _ => absurd h (List.not_mem_nil a)
  | x :: xs, h, hpa, huniq => by
    by_cases hx : p x = true
    · have hxa : x = a := huniq x (List.mem_cons_self x xs) hx
      subst hxa
      exact List.find?_cons_of_pos xs hx
    · rw [List.find?_cons_of_neg xs hx]
      have hax : a ∈ xs := by
        rcases List.mem_cons.mp h with rfl | hm
        · exact absurd hpa hx
        · exact hm
      exact find?_eq_some_of_unique hax hpa
        (fun b hb => huniq b (List.mem_cons_of_mem x hb))

theorem coversRequest_iff {r : IndexSubset} {attr : DifferentiableAttr} :
    coversRequest r attr = true ↔
      ∃ extended,
        r.extendingCapacity attr.parameterIndices.getCapacity = some extended ∧
        attr.parameterIndices.isSupersetOf extended = some true := by
  unfold coversRequest
  cases hext : r.extendingCapacity attr.parameterIndices.getCapacity with
  | none => simp
  | some e =>
    dsimp only
    cases hsup : attr.parameterIndices.isSupersetOf e with
    | none => simp [hsup]
    | some b =>
      dsimp only
      constructor
      · intro hb
        exact ⟨e, rfl, by rw [hsup, hb]⟩
      · rintro ⟨e', he', hs⟩
        injection he' with he'
        subst he'
        rw [hsup] at hs
        injection hs

theorem minimalAttrStep_error_cases {parameterIndices : IndexSubset}
    {best : Option DifferentiableAttr} {attr : DifferentiableAttr}
    {e : LookupFault} (h : minimalAttrStep parameterIndices best attr = .error e) :
    e = .capacityShrink ∨ e = .capacityMismatch := by
  unfold minimalAttrStep at h
  cases hext : parameterIndices.extendingCapacity attr.parameterIndices.getCapacity with
  | none =>
    rw [hext] at h
    injection h with h'
    exact Or.inl h'.symm
  | some extended =>
    rw [hext] at h
    dsimp only at h
    cases hsup : attr.parameterIndices.isSupersetOf extended with
    | none =>
      rw [hsup] at h
      injection h with h'
      exact Or.inr h'.symm
    | some sup =>
      rw [hsup] at h
      dsimp only at h
      split at h <;> exact absurd h (by simp)

theorem minimalAttrLoop_error_cases {parameterIndices : IndexSubset} :
    ∀ (attrs : List DifferentiableAttr) (best : Option DifferentiableAttr)
      {e : LookupFault},
      minimalAttrLoop parameterIndices attrs best = .error e →
      e = .capacityShrink ∨ e = .capacityMismatch
  | [], _, _, h => by cases h
  | attr :: rest, best, e, h => by
    unfold minimalAttrLoop at h
    cases hstep : minimalAttrStep parameterIndices best attr with
    | error e' =>
      rw [hstep] at h
      injection h with h'
      subst h'
      exact minimalAttrStep_error_cases hstep
    | ok best' =>
      rw [hstep] at h
      exact minimalAttrLoop_error_cases rest best' h

/-- C1: when the minimal-cover search returns an annotation, that
annotation's parameter indices are a superset of the request extended to the
annotation's capacity, and no other covering annotation in the declaration's
list has strictly fewer parameter indices. -/
theorem minimal_cover_correct (afd : AbstractFunctionDecl) (r : IndexSubset)
    (m : DifferentiableAttr)
    (h : getMinimalASTDifferentiableAttr afd r = .ok (some m)) :
    (∃ extended,
      r.extendingCapacity m.parameterIndices.getCapacity = some extended ∧
      m.parameterIndices.isSupersetOf extended = some true) ∧
    ∀ a ∈ afd.attrs, coversRequest r a = true →
      ¬(a.parameterIndices.getNumIndices < m.parameterIndices.getNumIndices) := by
  obtain ⟨hm, hmin, -⟩ :=
    minimalAttrLoop_min afd.attrs none m (fun b hb => by cases hb) h
  refine ⟨coversRequest_iff.mp hm, ?_⟩
  intro a ha hacov
  exact Nat.not_lt.mpr (hmin a ha hacov)

/-- C1 witness: scenario `f` of the spec, request `{0}` at capacity 2 with
attributes `{0,1}` and `{0}`: the search returns the one-index attribute and
the minimal-cover property holds for it. -/
theorem minimal_cover_correct_witness :
    getMinimalASTDifferentiableAttr exAfdF exReqCap2 = .ok (some exAttrOneIdx) ∧
    ((∃ extended,
      exReqCap2.extendingCapacity exAttrOneIdx.parameterIndices.getCapacity
        = some extended ∧
      exAttrOneIdx.parameterIndices.isSupersetOf extended = some true) ∧
    ∀ a ∈ exAfdF.attrs, coversRequest exReqCap2 a = true →
      ¬(a.parameterIndices.getNumIndices
        < exAttrOneIdx.parameterIndices.getNumIndices)) :=
  ⟨rfl, minimal_cover_correct exAfdF exReqCap2 exAttrOneIdx rfl⟩

/-- C7: the minimal-cover search returns the *first* covering annotation of
minimal index count in declaration order: every covering annotation strictly
before the returned one has strictly more indices (a later annotation
replaces the current best only when its count is strictly smaller), and no
covering annotation anywhere has fewer indices than the returned one. -/
theorem tie_break_first_wins (afd : AbstractFunctionDecl) (r : IndexSubset)
    (m : DifferentiableAttr)
    (h : getMinimalASTDifferentiableAttr afd r = .ok (some m)) :
    (∃ pre post, afd.attrs = pre ++ m :: post ∧
      coversRequest r m = true ∧
      ∀ a ∈ pre, coversRequest r a = true →
        m.parameterIndices.getNumIndices < a.parameterIndices.getNumIndices) ∧
    ∀ a ∈ afd.attrs, coversRequest r a = true →
      m.parameterIndices.getNumIndices ≤ a.parameterIndices.getNumIndices := by
  obtain ⟨-, hmin, -⟩ :=
    minimalAttrLoop_min afd.attrs none m (fun b hb => by cases hb) h
  rcases minimalAttrLoop_first afd.attrs none m h with hb | hsplit
  · cases hb
  · obtain ⟨pre, post, heq, hcov, -, hpre⟩ := hsplit
    exact ⟨⟨pre, post, heq, hcov, hpre⟩, hmin⟩

/-- C7 witness: two covering annotations with the same index count (both
`{0,1}` at capacity 2, different signatures); the search returns the first
one declared. -/
theorem tie_break_first_wins_witness :
    getMinimalASTDifferentiableAttr ⟨[exAttrTwoIdx, ⟨⟨[true, true]⟩, exSig2⟩]⟩
        ⟨[true, true]⟩ = .ok (some exAttrTwoIdx) ∧
    ((∃ pre post,
      (⟨[exAttrTwoIdx, ⟨⟨[true, true]⟩, exSig2⟩]⟩ : AbstractFunctionDecl).attrs
        = pre ++ exAttrTwoIdx :: post ∧
      coversRequest ⟨[true, true]⟩ exAttrTwoIdx = true ∧
      ∀ a ∈ pre, coversRequest ⟨[true, true]⟩ a = true →
        exAttrTwoIdx.parameterIndices.getNumIndices
          < a.parameterIndices.getNumIndices) ∧
    ∀ a ∈ (⟨[exAttrTwoIdx, ⟨⟨[true, true]⟩, exSig2⟩]⟩ : AbstractFunctionDecl).attrs,
      coversRequest ⟨[true, true]⟩ a = true →
        exAttrTwoIdx.parameterIndices.getNumIndices
          ≤ a.parameterIndices.getNumIndices) :=
  ⟨rfl, tie_break_first_wins ⟨[exAttrTwoIdx, ⟨⟨[true, true]⟩, exSig2⟩]⟩
    ⟨[true, true]⟩ exAttrTwoIdx rfl⟩

/-- C3 counterexample: an annotation whose parameter capacity (1) is smaller
than the request's capacity (2) is *not* skipped: the source invokes the
capacity extension anyway and the search aborts with the capacity-shrink
fault, whereas the resolver as the spec words it (which skips such an
annotation) returns no cover. -/
theorem small_capacity_not_skipped :
    getMinimalASTDifferentiableAttr exAfdSmall exReqCap2
      = .error .capacityShrink ∧
    findMinimalCoverSpec exReqCap2 exAfdSmall.attrs none = none :=
  ⟨rfl, rfl⟩

/-- C3 amended: an annotation whose parameter-index capacity is smaller than
the requested `IndexSet`'s capacity is *not* skipped; `extendingCapacity` is
invoked with the smaller capacity regardless, so the search aborts with the
capacity-shrink fault instead of continuing. -/
theorem small_capacity_aborts (afd : AbstractFunctionDecl) (r : IndexSubset)
    (h : ∃ a ∈ afd.attrs, a.parameterIndices.getCapacity < r.getCapacity) :
    getMinimalASTDifferentiableAttr afd r = .error .capacityShrink :=
  minimalAttrLoop_shrink afd.attrs none h

/-- C3 amended witness: the capacity-1 annotation against the capacity-2
request. -/
theorem small_capacity_aborts_witness :
    getMinimalASTDifferentiableAttr exAfdSmall exReqCap2
      = .error .capacityShrink :=
  small_capacity_aborts exAfdSmall exReqCap2
    ⟨exAttrSmall, by decide, by decide⟩

/-- C4: the single-result gate: whenever the requested result index set does
not have capacity 1 or does not contain index 0, the get-or-create entry
point returns absent (and an unchanged registry), regardless of which
annotations are present on the function. -/
theorem single_result_gate (module : SILModule) (original : SILFunction)
    (parameterIndices resultIndices : IndexSubset)
    (h : resultIndices.getCapacity ≠ 1 ∨ resultIndices.contains 0 = false) :
    getOrCreateMinimalASTDifferentiabilityWitness module original
      parameterIndices resultIndices = .ok (none, module) := by
  unfold getOrCreateMinimalASTDifferentiabilityWitness
  rw [if_pos h]

/-- C4 witness: a capacity-2 result index set is rejected even though the
function (`g`) has a covering annotation. -/
theorem single_result_gate_witness :
    getOrCreateMinimalASTDifferentiabilityWitness exEmptyModule exFuncG
      exReqCap2 exResBad = .ok (none, exEmptyModule) :=
  single_result_gate exEmptyModule exFuncG exReqCap2 exResBad
    (Or.inl (by decide))

/-- C10: whenever the get-or-create entry point returns absent — the gate
fails, the function has no associated declaration, or no annotation covers —
the registry it returns is the one it was given: no witness is registered on
any failure path. -/
theorem absent_leaves_registry_unchanged (module : SILModule)
    (original : SILFunction) (parameterIndices resultIndices : IndexSubset)
    (module' : SILModule)
    (h : getOrCreateMinimalASTDifferentiabilityWitness module original
      parameterIndices resultIndices = .ok (none, module')) :
    module' = module := by
  unfold getOrCreateMinimalASTDifferentiabilityWitness at h
  split at h
  · injection h with h'
    exact (congrArg Prod.snd h').symm
  · cases hafd : findAbstractFunctionDecl original with
    | none =>
      rw [hafd] at h
      injection h with h'
      exact (congrArg Prod.snd h').symm
    | some afd =>
      rw [hafd] at h
      dsimp only at h
      cases hmin : getMinimalASTDifferentiableAttr afd parameterIndices with
      | error e => rw [hmin] at h; cases h
      | ok ob =>
        rw [hmin] at h
        cases ob with
        | none =>
          dsimp only at h
          injection h with h'
          exact (congrArg Prod.snd h').symm
        | some m =>
          dsimp only at h
          cases hlook : module.lookUpDifferentiabilityWitness original.name
              ⟨m.parameterIndices, resultIndices, m.derivativeGenericSignature⟩ with
          | some ew =>
            rw [hlook] at h
            injection h with h'
            exact Option.noConfusion (congrArg Prod.fst h')
          | none =>
            rw [hlook] at h
            by_cases hoe : original.isExternalDeclaration = true
            · rw [if_pos hoe] at h
              injection h with h'
              exact Option.noConfusion (congrArg Prod.fst h')
            · rw [if_neg hoe] at h
              cases h

/-- C10 witness: a gate-rejected request on a nonempty registry leaves the
registry unchanged. -/
theorem absent_leaves_registry_unchanged_witness : exModuleG = exModuleG :=
  absent_leaves_registry_unchanged exModuleG exFuncG exReqCap2 exResBad
    exModuleG rfl

/-- C9 counterexample: a function none of whose annotations cover the
request (here one annotation of capacity 1 against a capacity-2 request)
does *not* get absent back: the get-or-create entry point aborts with the
capacity-shrink fault instead of returning an ordinary absence. -/
theorem no_cover_fault_counterexample :
    getOrCreateMinimalASTDifferentiabilityWitness exEmptyModule exFuncSmall
        exReqCap2 exResSingle = .error .capacityShrink ∧
    (∀ a ∈ exAfdSmall.attrs, coversRequest exReqCap2 a = false) :=
  ⟨rfl, by decide⟩

/-- C9 amended: for every function with no associated function declaration,
and for every function none of whose annotations cover the requested
parameter indices — *provided each annotation's parameter capacity is at
least the request's capacity*, so that the capacity extension is defined
(this includes a function with no annotations at all) — the get-or-create
entry point returns absent as an ordinary result, never a fault. -/
theorem no_cover_returns_absent (module : SILModule) (original : SILFunction)
    (parameterIndices resultIndices : IndexSubset)
    (h : findAbstractFunctionDecl original = none ∨
      ∃ afd, findAbstractFunctionDecl original = some afd ∧
        (∀ a ∈ afd.attrs,
          parameterIndices.getCapacity ≤ a.parameterIndices.getCapacity) ∧
        ∀ a ∈ afd.attrs, coversRequest parameterIndices a = false) :
    getOrCreateMinimalASTDifferentiabilityWitness module original
      parameterIndices resultIndices = .ok (none, module) := by
  unfold getOrCreateMinimalASTDifferentiabilityWitness
  split
  · rfl
  · rcases h with hnone | ⟨afd, hafd, hcap, hcov⟩
    · rw [hnone]
    · rw [hafd]
      dsimp only
      have hmin : getMinimalASTDifferentiableAttr afd parameterIndices = .ok none :=
        minimalAttrLoop_no_cover afd.attrs none hcap hcov
      rw [hmin]

/-- C9 witness: all three ordinary-absence shapes at concrete inputs: a
function with no associated declaration, a function whose declaration has no
attributes, and a function whose only annotation (capacity 2, index 1) does
not cover the request `{0}`. -/
theorem no_cover_returns_absent_witness :
    getOrCreateMinimalASTDifferentiabilityWitness exEmptyModule exFuncNoDecl
        exReqCap2 exResSingle = .ok (none, exEmptyModule) ∧
    getOrCreateMinimalASTDifferentiabilityWitness exEmptyModule exFuncNoAttrs
        exReqCap2 exResSingle = .ok (none, exEmptyModule) ∧
    getOrCreateMinimalASTDifferentiabilityWitness exEmptyModule exFuncNoCover
        exReqCap2 exResSingle = .ok (none, exEmptyModule) :=
  ⟨no_cover_returns_absent exEmptyModule exFuncNoDecl exReqCap2 exResSingle
      (Or.inl rfl),
    no_cover_returns_absent exEmptyModule exFuncNoAttrs exReqCap2 exResSingle
      (Or.inr ⟨⟨[]⟩, rfl, by decide, by decide⟩),
    no_cover_returns_absent exEmptyModule exFuncNoCover exReqCap2 exResSingle
      (Or.inr ⟨exAfdNoCover, rfl, by decide, by decide⟩)⟩

/-- C2: the existing-witness check of the get-or-create entry point looks up
by function identity and the minimal config's parameter and result index
sets only — nothing in the hypotheses constrains the registered witness's
derivative signature, yet the witness with matching parameter/result
`IndexSet`s (unique by the registry invariant) is returned. -/
theorem existing_witness_by_indices_only (module : SILModule)
    (original : SILFunction) (afd : AbstractFunctionDecl)
    (parameterIndices resultIndices : IndexSubset) (m : DifferentiableAttr)
    (w : SILDifferentiabilityWitness)
    (hcap : resultIndices.getCapacity = 1)
    (hc0 : resultIndices.contains 0 = true)
    (hafd : findAbstractFunctionDecl original = some afd)
    (hmin : getMinimalASTDifferentiableAttr afd parameterIndices = .ok (some m))
    (hw : w ∈ module.witnesses)
    (hname : w.originalName = original.name)
    (hparams : w.config.parameterIndices = m.parameterIndices)
    (hresults : w.config.resultIndices = resultIndices)
    (huniq : ∀ w' ∈ module.witnesses, w'.originalName = original.name →
      w'.config.parameterIndices = m.parameterIndices →
      w'.config.resultIndices = resultIndices → w' = w) :
    getOrCreateMinimalASTDifferentiabilityWitness module original
      parameterIndices resultIndices = .ok (some w, module) := by
  unfold getOrCreateMinimalASTDifferentiabilityWitness
  rw [if_neg (by simp [hcap, hc0])]
  rw [hafd]
  dsimp only
  rw [hmin]
  dsimp only
  have hlook : module.lookUpDifferentiabilityWitness original.name
      ⟨m.parameterIndices, resultIndices, m.derivativeGenericSignature⟩ = some w := by
    unfold SILModule.lookUpDifferentiabilityWitness
    apply find?_eq_some_of_unique hw
    · exact decide_eq_true ⟨hname, hparams, hresults⟩
    · intro b hb hpb
      obtain ⟨hb1, hb2, hb3⟩ := of_decide_eq_true hpb
      exact huniq b hb hb1 hb2 hb3
  rw [hlook]

/-- C2 witness: the registry holds one witness for `g`'s minimal
configuration whose derivative signature (`exSig2`) differs from the
covering annotation's (`exSig1`); the existing-witness check still returns
it. -/
theorem existing_witness_by_indices_only_witness :
    getOrCreateMinimalASTDifferentiabilityWitness exModuleOtherSig exFuncG
      exReqCap2 exResSingle = .ok (some exWitnessOtherSig, exModuleOtherSig) :=
  existing_witness_by_indices_only exModuleOtherSig exFuncG exAfdG exReqCap2
    exResSingle exAttrG exWitnessOtherSig (by decide) (by decide) rfl rfl
    (by decide) (by decide) (by decide) (by decide) (by decide)

/-- C8: when the get-or-create entry point creates a new witness, the
witness is in Declaration state with externally visible (`PublicExternal`)
linkage, its parameter indices are the covering (minimal) annotation's — not
the raw requested indices — and its result indices and derivative signature
are the requested result indices and the annotation's signature; it is
registered under the function's name. -/
theorem created_witness_shape (module : SILModule) (original : SILFunction)
    (afd : AbstractFunctionDecl) (parameterIndices resultIndices : IndexSubset)
    (m : DifferentiableAttr)
    (hcap : resultIndices.getCapacity = 1)
    (hc0 : resultIndices.contains 0 = true)
    (hafd : findAbstractFunctionDecl original = some afd)
    (hmin : getMinimalASTDifferentiableAttr afd parameterIndices = .ok (some m))
    (hlook : module.lookUpDifferentiabilityWitness original.name
      ⟨m.parameterIndices, resultIndices, m.derivativeGenericSignature⟩ = none)
    (hext : original.isExternalDeclaration = true) :
    ∃ w, getOrCreateMinimalASTDifferentiabilityWitness module original
        parameterIndices resultIndices = .ok (some w, ⟨module.witnesses ++ [w]⟩) ∧
      w.state = WitnessState.declaration ∧
      w.linkage = SILLinkage.publicExternal ∧
      w.config.parameterIndices = m.parameterIndices ∧
      w.config.resultIndices = resultIndices ∧
      w.config.derivativeGenericSignature = m.derivativeGenericSignature ∧
      w.originalName = original.name := by
  refine ⟨⟨original.name,
    ⟨m.parameterIndices, resultIndices, m.derivativeGenericSignature⟩,
    .declaration, .publicExternal⟩, ?_, rfl, rfl, rfl, rfl, rfl, rfl⟩
  unfold getOrCreateMinimalASTDifferentiabilityWitness
  rw [if_neg (by simp [hcap, hc0])]
  rw [hafd]
  dsimp only
  rw [hmin]
  dsimp only
  rw [hlook]
  rw [if_pos hext]
  rfl

/-- C8 witness: scenario `g` of the spec: request `{0}` at capacity 2 is
covered by the annotation `{0,2}` at capacity 3, and the created witness
carries `{0,2}` (the annotation's indices), not `{0}`. -/
theorem created_witness_shape_witness :
    ∃ w, getOrCreateMinimalASTDifferentiabilityWitness exEmptyModule exFuncG
        exReqCap2 exResSingle
        = .ok (some w, ⟨exEmptyModule.witnesses ++ [w]⟩) ∧
      w.state = WitnessState.declaration ∧
      w.linkage = SILLinkage.publicExternal ∧
      w.config.parameterIndices = exAttrG.parameterIndices ∧
      w.config.resultIndices = exResSingle ∧
      w.config.derivativeGenericSignature = exAttrG.derivativeGenericSignature ∧
      w.originalName = exFuncG.name :=
  created_witness_shape exEmptyModule exFuncG exAfdG exReqCap2 exResSingle
    exAttrG (by decide) (by decide) rfl rfl rfl (by decide)

/-- C5: get-or-create is idempotent: if a first call returns a witness and
an updated registry, a second call with identical arguments on that registry
returns the very same witness and leaves the registry exactly as it was —
the witness registered by the first call is found by the second call's
existing-witness lookup. -/
theorem get_or_create_idempotent (module : SILModule) (original : SILFunction)
    (parameterIndices resultIndices : IndexSubset)
    (w : SILDifferentiabilityWitness) (module₁ : SILModule)
    (h : getOrCreateMinimalASTDifferentiabilityWitness module original
      parameterIndices resultIndices = .ok (some w, module₁)) :
    getOrCreateMinimalASTDifferentiabilityWitness module₁ original
      parameterIndices resultIndices = .ok (some w, module₁) := by
  unfold getOrCreateMinimalASTDifferentiabilityWitness at h ⊢
  by_cases hgate : resultIndices.getCapacity ≠ 1 ∨ resultIndices.contains 0 = false
  · rw [if_pos hgate] at h
    injection h with h'
    exact Option.noConfusion (congrArg Prod.fst h')
  · rw [if_neg hgate] at h
    rw [if_neg hgate]
    cases hafd : findAbstractFunctionDecl original with
    | none =>
      rw [hafd] at h
      injection h with h'
      exact Option.noConfusion (congrArg Prod.fst h')
    | some afd =>
      rw [hafd] at h
      dsimp only at h ⊢
      cases hmin : getMinimalASTDifferentiableAttr afd parameterIndices with
      | error e => rw [hmin] at h; cases h
      | ok ob =>
        rw [hmin] at h
        cases ob with
        | none =>
          dsimp only at h
          injection h with h'
          exact Option.noConfusion (congrArg Prod.fst h')
        | some m =>
          dsimp only at h ⊢
          cases hlook : module.lookUpDifferentiabilityWitness original.name
              ⟨m.parameterIndices, resultIndices, m.derivativeGenericSignature⟩ with
          | some ew =>
            rw [hlook] at h
            injection h with h'
            have hw : ew = w := Option.some.inj (congrArg Prod.fst h')
            have hm : module = module₁ := congrArg Prod.snd h'
            subst hw
            subst hm
            rw [hlook]
          | none =>
            rw [hlook] at h
            by_cases hoe : original.isExternalDeclaration = true
            · rw [if_pos hoe] at h
              injection h with h'
              have hw : (SILDifferentiabilityWitness.createDeclaration module
                  .publicExternal original m.parameterIndices resultIndices
                  m.derivativeGenericSignature).1 = w :=
                Option.some.inj (congrArg Prod.fst h')
              have hm : (SILDifferentiabilityWitness.createDeclaration module
                  .publicExternal original m.parameterIndices resultIndices
                  m.derivativeGenericSignature).2 = module₁ :=
                congrArg Prod.snd h'
              subst hw
              subst hm
              have hlook2 : (SILDifferentiabilityWitness.createDeclaration module
                  .publicExternal original m.parameterIndices resultIndices
                  m.derivativeGenericSignature).2.lookUpDifferentiabilityWitness
                    original.name
                    ⟨m.parameterIndices, resultIndices, m.derivativeGenericSignature⟩
                  = some (SILDifferentiabilityWitness.createDeclaration module
                    .publicExternal original m.parameterIndices resultIndices
                    m.derivativeGenericSignature).1 := by
                unfold SILModule.lookUpDifferentiabilityWitness at hlook ⊢
                unfold SILDifferentiabilityWitness.createDeclaration
                dsimp only at hlook ⊢
                rw [List.find?_append, hlook]
                simp
              rw [hlook2]
            · rw [if_neg hoe] at h
              cases h

/-- C5 witness: creating `g`'s witness from the empty registry and calling
again on the resulting one-witness registry returns the same witness with
the registry unchanged. -/
theorem get_or_create_idempotent_witness :
    getOrCreateMinimalASTDifferentiabilityWitness exModuleG exFuncG exReqCap2
      exResSingle = .ok (some exWitnessG, exModuleG) :=
  get_or_create_idempotent exEmptyModule exFuncG exReqCap2 exResSingle
    exWitnessG exModuleG rfl

/-- C6: under the eager-registration precondition (every function with a
full local definition already has a witness registered for each of its
annotations' lowered parameter indices with the single result index), the
failed-assertion branch of the get-or-create entry point is unreachable: the
run never aborts with the eager-witness-missing fault, because when the
minimal annotation is found for a defined function the existing-witness
lookup necessarily succeeds first. -/
theorem eager_invariant_unreachable (module : SILModule) (original : SILFunction)
    (afd : AbstractFunctionDecl) (parameterIndices resultIndices : IndexSubset)
    (hafd : findAbstractFunctionDecl original = some afd)
    (hreg : eagerWitnessesRegistered module original afd) :
    getOrCreateMinimalASTDifferentiabilityWitness module original
      parameterIndices resultIndices ≠ .error .eagerWitnessMissing := by
  unfold getOrCreateMinimalASTDifferentiabilityWitness
  by_cases hgate : resultIndices.getCapacity ≠ 1 ∨ resultIndices.contains 0 = false
  · rw [if_pos hgate]
    intro hcontra
    cases hcontra
  · rw [if_neg hgate]
    rw [hafd]
    dsimp only
    cases hmin : getMinimalASTDifferentiableAttr afd parameterIndices with
    | error e =>
      dsimp only
      intro hcontra
      injection hcontra with he
      subst he
      rcases minimalAttrLoop_error_cases afd.attrs none hmin with h' | h' <;> cases h'
    | ok ob =>
      cases ob with
      | none => intro hcontra; cases hcontra
      | some m =>
        dsimp only
        cases hlook : module.lookUpDifferentiabilityWitness original.name
            ⟨m.parameterIndices, resultIndices, m.derivativeGenericSignature⟩ with
        | some ew => intro hcontra; cases hcontra
        | none =>
          by_cases hoe : original.isExternalDeclaration = true
          · rw [if_pos hoe]
            intro hcontra
            cases hcontra
          · exfalso
            have hoe' : original.isExternalDeclaration = false := by
              cases hb : original.isExternalDeclaration
              · rfl
              · exact absurd hb hoe
            have hgate' : resultIndices.getCapacity = 1 ∧
                resultIndices.contains 0 = true := by
              push_neg at hgate
              obtain ⟨h1, h2⟩ := hgate
              exact ⟨h1, by simpa using h2⟩
            have hrr : resultIndices = ⟨[true]⟩ :=
              eq_singleton_of_capacity_one_contains_zero hgate'.1 hgate'.2
            have hmem : m ∈ afd.attrs := by
              rcases minimalAttrLoop_first afd.attrs none m hmin with
                hb | ⟨pre, post, heq, -, -, -⟩
              · cases hb
              · rw [heq]
                exact List.mem_append_right pre (List.mem_cons_self m post)
            obtain ⟨wreg, hwmem, hwname, hwparams, hwres⟩ := hreg hoe' m hmem
            unfold SILModule.lookUpDifferentiabilityWitness at hlook
            exact List.find?_eq_none.mp hlook wreg hwmem
              (decide_eq_true ⟨hwname, hwparams, by rw [hrr]; exact hwres⟩)

/-- C6 witness: `g` as a function with a full local definition whose
attribute's witness was eagerly registered: get-or-create does not abort
(the eager-registration assertion's failure branch is not taken). -/
theorem eager_invariant_unreachable_witness :
    getOrCreateMinimalASTDifferentiabilityWitness exModuleEager exFuncGDefined
      exReqCap2 exResSingle ≠ .error .eagerWitnessMissing :=
  eager_invariant_unreachable exModuleEager exFuncGDefined exAfdG exReqCap2
    exResSingle rfl (by unfold eagerWitnessesRegistered; decide)
